import Mathlib

/-!
Verification of the mirage-encryption repository's schema-expansion,
DEK-resolution and schema-validation pipeline.

The TypeScript sources are shallowly embedded:
* dynamic JavaScript values (the schema trees handled by
  `src/utils/schema.utils.ts`) become the inductive `JValue`;
* `validateCSFLESchema` / `recursiveValidate` / `validateEncrypt` are
  translated line by line; the recursion is driven by an explicit fuel
  parameter (`recursiveValidateF`), with the public wrapper supplying
  `jheight`, an upper bound on the recursion depth, so that the function
  is structurally recursive and computable by the kernel;
* `EncryptionSchemaService.generateCSFLESchema` / `processFields` are
  translated with the DEK resolver abstracted as a pure function
  `resolve : String → Nat` and with the list of resolver calls recorded;
* `DekManager.getDEK` is modelled twice, once against an in-memory
  key-vault store (for the idempotency claim) and once against
  collaborators that may fail (for the error-wrapping claim);
* `DekManager.getKmsProviderConfig` / `getMasterKey` and
  `ServerEncryptionService.buildEncryptionConfig` are translated over a
  closed union of KMS provider configurations.
-/

set_option maxRecDepth 100000

namespace Mirage

/- Dynamic JavaScript values, as far as the schema validator observes
them: primitives, `null`, arrays and plain objects (ordered key/value
lists; real JS objects have pairwise-distinct keys).  The mutual
formulation keeps all recursion structural so that the kernel can
evaluate the validator on concrete inputs. -/
mutual
inductive JValue : Type where
  | str : String → JValue
  | num : Int → JValue
  | jbool : Bool → JValue
  | null : JValue
  | arr : JArray → JValue
  | obj : JFields → JValue
  deriving DecidableEq
inductive JArray : Type where
  | nil : JArray
  | cons : JValue → JArray → JArray
  deriving DecidableEq
inductive JFields : Type where
  | nil : JFields
  | cons : String → JValue → JFields → JFields
  deriving DecidableEq
end

deriving instance DecidableEq for Except

/-- Property lookup on an object's field list (first match; JS objects
have unique keys). -/
def JFields.lookup : JFields → String → Option JValue
  | .nil, _ => none
  | .cons k v tl, key => if k == key then some v else JFields.lookup tl key

def JFields.length : JFields → Nat
  | .nil => 0
  | .cons _ _ tl => 1 + JFields.length tl

def JArray.length : JArray → Nat
  | .nil => 0
  | .cons _ tl => 1 + JArray.length tl

def JFields.keys : JFields → List String
  | .nil => []
  | .cons k _ tl => k :: JFields.keys tl

def JFields.toList : JFields → List (String × JValue)
  | .nil => []
  | .cons k v tl => (k, v) :: JFields.toList tl

/-- Builds a `JValue.obj` from a plain list, for writing literals. -/
def jobj (l : List (String × JValue)) : JValue :=
  .obj (l.foldr (fun kv acc => JFields.cons kv.1 kv.2 acc) .nil)

/-- Builds a `JValue.arr` from a plain list, for writing literals. -/
def jarr (l : List JValue) : JValue :=
  .arr (l.foldr (fun v acc => JArray.cons v acc) .nil)

/-- JavaScript `typeof`: note `typeof null === "object"`. -/
def jsTypeof : JValue → String
  | .str _ => "string"
  | .num _ => "number"
  | .jbool _ => "boolean"
  | .null => "object"
  | .arr _ => "object"
  | .obj _ => "object"

/-- JavaScript truthiness of a value. -/
def truthy : JValue → Bool
  | .str s => s != ""
  | .num n => n != 0
  | .jbool b => b
  | .null => false
  | .arr _ => true
  | .obj _ => true

/-- Truthiness of a possibly-absent property (`undefined` is falsy). -/
def truthyOpt : Option JValue → Bool
  | none => false
  | some v => truthy v

def isNull : JValue → Bool
  | .null => true
  | _ => false

/-- Property access `v[key]` for the string keys the validator uses
(`properties`, `bsonType`, ...): only plain objects carry them; on
strings, numbers, booleans and arrays these names are absent. -/
def jsGet : JValue → String → Option JValue
  | .obj fs, key => fs.lookup key
  | _, _ => none

/-- `Object.keys(v).length`.  Strings enumerate their character indices,
arrays their element indices; numbers and booleans have no own keys.
(Unreachable for `null`, which the code always guards by truthiness.) -/
def jsKeysLength : JValue → Nat
  | .obj fs => fs.length
  | .arr xs => xs.length
  | .str s => s.length
  | _ => 0

def idxKeysArr (i : Nat) : JArray → List String
  | .nil => []
  | .cons _ tl => toString i :: idxKeysArr (i + 1) tl

def idxKeysChars (i : Nat) : List Char → List String
  | [] => []
  | _ :: tl => toString i :: idxKeysChars (i + 1) tl

/-- `Object.keys(v)`. -/
def jsKeys : JValue → List String
  | .obj fs => fs.keys
  | .arr xs => idxKeysArr 0 xs
  | .str s => idxKeysChars 0 s.data
  | _ => []

def entriesArr (i : Nat) : JArray → List (String × JValue)
  | .nil => []
  | .cons v tl => (toString i, v) :: entriesArr (i + 1) tl

def entriesChars (i : Nat) : List Char → List (String × JValue)
  | [] => []
  | c :: tl => (toString i, JValue.str (String.singleton c)) :: entriesChars (i + 1) tl

/-- `Object.entries(v)`: an object's pairs; an array's indexed elements;
a string's indexed one-character strings. -/
def jsEntries : JValue → List (String × JValue)
  | .obj fs => fs.toList
  | .arr xs => entriesArr 0 xs
  | .str s => entriesChars 0 s.data
  | _ => []

/- Rendering of a value inside a template literal (`String(v)`).
Arrays join their elements with commas (`null` renders empty inside a
join); objects render as `[object Object]`. -/
mutual
def jsDisplay : JValue → String
  | .str s => s
  | .num n => toString n
  | .jbool b => if b then "true" else "false"
  | .null => "null"
  | .arr xs => jsDisplayItems xs
  | .obj _ => "[object Object]"
def jsDisplayItems : JArray → String
  | .nil => ""
  | .cons v tl =>
      (match v with
       | .null => ""
       | w => jsDisplay w) ++
      (match tl with
       | .nil => ""
       | tl' => "," ++ jsDisplayItems tl')
end

def displayOpt : Option JValue → String
  | some v => jsDisplay v
  | none => "undefined"

/-- Does `some (.str s)` hold a string strictly equal (`===`) to `t`? -/
def isStrEqOpt : Option JValue → String → Bool
  | some (.str s), t => s == t
  | _, _ => false

/-- `list.includes(v)` for a list of strings against a dynamic value
(strict equality: only a string can match). -/
def includesJ (l : List String) : Option JValue → Bool
  | some (.str s) => l.contains s
  | _ => false

/- An upper bound on the depth of the validator's recursion through a
value.  The validator only ever recurses into the entries of a node's
`properties` and `patternProperties` values, so only those keys
contribute; the entries of a truthy string value are fresh
one-character strings of height 1.  Values under other keys (such as
`encrypt`) never add depth, which keeps the bound concrete even when
those values are symbolic. -/
mutual
def jheight : JValue → Nat
  | .obj fs => 1 + jheightF fs
  | _ => 1
def jheightF : JFields → Nat
  | .nil => 0
  | .cons k v tl =>
      max (if k == "properties" || k == "patternProperties" then jheightVal v else 0)
        (jheightF tl)
def jheightVal : JValue → Nat
  | .obj fs => jheightVals fs
  | .arr xs => jheightElems xs
  | .str _ => 1
  | _ => 0
def jheightVals : JFields → Nat
  | .nil => 0
  | .cons _ v tl => max (jheight v) (jheightVals tl)
def jheightElems : JArray → Nat
  | .nil => 0
  | .cons v tl => max (jheight v) (jheightElems tl)
end

/-! ## Embedding of `src/utils/schema.utils.ts` -/

/-- Validation outcome errors: `SchemaError` from `errors.ts`, plus raw
JS `TypeError` for the runtime faults the code does not guard (all
unreachable along the flows proved below). -/
inductive VErr : Type where
  | schemaError : String → VErr
  | typeError : String → VErr
  deriving DecidableEq

/-- The string values of the TS enum `EEncryptionAlgorithm`. -/
def EEncryptionAlgorithm.DETERMINISTIC : String :=
  "AEAD_AES_256_CBC_HMAC_SHA_512-Deterministic"

def EEncryptionAlgorithm.RANDOM : String :=
  "AEAD_AES_256_CBC_HMAC_SHA_512-Random"

/-- `deterministicSupportedTypes` from `schema.utils.ts` (note: the BSON
aliases `int` and `long`, not `int32`/`int64`). -/
def deterministicSupportedTypes : List String :=
  ["string", "int", "long", "date", "objectId", "uuid"]

/-- The allow-list of node keys from `recursiveValidate`. -/
def allowedKeys : List String :=
  ["bsonType", "properties", "patternProperties", "encrypt",
   "encryptMetadata", "description", "title", "required"]

/-- `validateEncrypt(field, encryptDef)`, translated check for check as
nested early returns.  `typeof null === "object"`, so a null argument
would fault on the first property access; the validator never passes
null (falsy `encrypt` values are skipped before the call). -/
def validateEncrypt (field : String) (encryptDef : JValue) : Except VErr Unit :=
  if jsTypeof encryptDef != "object" then
    throw (.schemaError ("Invalid encrypt definition for field '" ++ field ++ "'."))
  else if isNull encryptDef then
    throw (.typeError "Cannot read properties of null")
  else if !truthyOpt (jsGet encryptDef "bsonType") then
    throw (.schemaError ("Missing bsonType for encrypted field '" ++ field ++ "'."))
  else if !truthyOpt (jsGet encryptDef "algorithm") then
    throw (.schemaError ("Missing algorithm for encrypted field '" ++ field ++ "'."))
  else if isStrEqOpt (jsGet encryptDef "algorithm") EEncryptionAlgorithm.DETERMINISTIC
      && !includesJ deterministicSupportedTypes (jsGet encryptDef "bsonType") then
    throw (.schemaError ("Invalid schema for '" ++ field ++ "': bsonType '" ++
      displayOpt (jsGet encryptDef "bsonType") ++
      "' is not supported with Deterministic algorithm. " ++
      "Supported types for deterministic encryption are: " ++
      String.intercalate ", " deterministicSupportedTypes))
  else pure ()

/-- The opening guard of `recursiveValidate`:
`typeof obj !== "object" || obj === null`. -/
def checkNodeType (o : JValue) (parentPath : String) : Except VErr Unit :=
  if jsTypeof o != "object" || isNull o then
    throw (.schemaError ("Invalid schema at '" ++ parentPath ++
      "': must be an object definition."))
  else pure ()

/-- The first `if (obj.properties)` block of `recursiveValidate`:
`bsonType` must be "object" and `properties` must not be empty. -/
def checkPropertiesShape (o : JValue) (parentPath : String) : Except VErr Unit :=
  match jsGet o "properties" with
  | some props =>
      if truthy props then
        if !isStrEqOpt (jsGet o "bsonType") "object" then
          throw (.schemaError ("Invalid schema at '" ++ parentPath ++
            "': fields with 'properties' must have bsonType 'object'."))
        else if jsKeysLength props == 0 then
          throw (.schemaError ("Invalid schema at '" ++ parentPath ++
            "': 'properties' must not be empty."))
        else pure ()
      else pure ()
  | none => pure ()

/-- The `if (obj.encrypt)` block of `recursiveValidate`. -/
def checkEncrypt (o : JValue) (parentPath : String) : Except VErr Unit :=
  match jsGet o "encrypt" with
  | some enc => if truthy enc then validateEncrypt parentPath enc else pure ()
  | none => pure ()

/-- The final allowed-keys loop of `recursiveValidate`. -/
def checkAllowedKeys : List String → String → Except VErr Unit
  | [], _ => pure ()
  | key :: rest, parentPath =>
      if !allowedKeys.contains key then
        throw (.schemaError ("Invalid key '" ++ key ++ "' found at '" ++ parentPath ++
          "'. Allowed keys are: " ++ String.intercalate ", " allowedKeys))
      else checkAllowedKeys rest parentPath

/-- Runs a validation step over each entry in order, stopping at the
first thrown error (the `for ... of Object.entries(...)` loops). -/
def forEachEntry (step : String × JValue → Except VErr Unit) :
    List (String × JValue) → Except VErr Unit
  | [] => pure ()
  | kv :: rest => do
      step kv
      forEachEntry step rest

/-- The recursion of `recursiveValidate` into the entries of a truthy
`properties` value, with dot-extended paths (`recv` is the recursive
call at the remaining fuel). -/
def propsRecursion (recv : JValue → String → Except VErr Unit)
    (o : JValue) (parentPath : String) : Except VErr Unit :=
  match jsGet o "properties" with
  | some props =>
      if truthy props then
        forEachEntry (fun kv => recv kv.2 (parentPath ++ "." ++ kv.1)) (jsEntries props)
      else pure ()
  | none => pure ()

/-- The `patternProperties` block of `recursiveValidate`: for a truthy
value, `bsonType` must be "object", then each pattern's value is
validated with a brace-quoted path qualifier. -/
def patternRecursion (recv : JValue → String → Except VErr Unit)
    (o : JValue) (parentPath : String) : Except VErr Unit :=
  match jsGet o "patternProperties" with
  | some pp =>
      if truthy pp then
        if !isStrEqOpt (jsGet o "bsonType") "object" then
          throw (.schemaError ("Invalid schema at '" ++ parentPath ++
            "': 'patternProperties' must be inside bsonType 'object'."))
        else
          forEachEntry (fun kv => recv kv.2 (parentPath ++ "\x7b" ++ kv.1 ++ "\x7d"))
            (jsEntries pp)
      else pure ()
  | none => pure ()

/-- `recursiveValidate(obj, parentPath)` with explicit fuel; the wrapper
`recursiveValidate` supplies `jheight obj`, which the lemmas below show
is always sufficient, so the fuel-exhaustion branch is unreachable.
The blocks run in source order: type guard, `properties` shape checks,
`encrypt` validation, recursion into `properties`, the
`patternProperties` block, the allowed-keys scan. -/
def recursiveValidateF : Nat → JValue → String → Except VErr Unit
  | 0, _, _ => throw (.typeError "Maximum call stack size exceeded")
  | fuel + 1, o, parentPath => do
      checkNodeType o parentPath
      checkPropertiesShape o parentPath
      checkEncrypt o parentPath
      propsRecursion (recursiveValidateF fuel) o parentPath
      patternRecursion (recursiveValidateF fuel) o parentPath
      checkAllowedKeys (jsKeys o) parentPath

/-- `recursiveValidate(obj, parentPath)`. -/
def recursiveValidate (o : JValue) (parentPath : String) : Except VErr Unit :=
  recursiveValidateF (jheight o) o parentPath

/-- The per-collection loop of `validateCSFLESchema`.  The non-null
object check's error message uses the caller-supplied root label, not
the collection key. -/
def validateCollections : List (String × JValue) → String → Except VErr Unit
  | [], _ => pure ()
  | (_, schema) :: rest, collectionName =>
      if jsTypeof schema != "object" || isNull schema then
        throw (.schemaError ("Schema for '" ++ collectionName ++
          "' must be a non-null object."))
      else do
        recursiveValidate schema collectionName
        validateCollections rest collectionName

/-- `validateCSFLESchema(schemaObj, collectionName = "root")`: empty-map
guard, per-collection walk, `return true`; the surrounding catch
re-throws `SchemaError` unchanged and wraps anything else. -/
def validateCSFLESchema (schemaObj : JValue) (collectionName : String) : Except VErr Bool :=
  match (if !truthy schemaObj || jsTypeof schemaObj != "object" || jsKeysLength schemaObj == 0 then
      throw (.schemaError "Schema cannot be empty")
    else do
      validateCollections (jsEntries schemaObj) collectionName
      pure true : Except VErr Bool) with
  | .ok b => .ok b
  | .error (.schemaError m) => .error (.schemaError m)
  | .error (.typeError m) => .error (.schemaError ("Schema validation failed: " ++ m))


/-! ## Embedding of `EncryptionSchemaService` (`encryptionSchemaService.ts`) -/

/- A field's value in the simplified input schema: a primitive type tag
(string) or a nested sub-object of fields.  Field lists are ordered as
in the JSON source. -/
mutual
inductive FieldSpec : Type where
  | tag : String → FieldSpec
  | nested : FieldList → FieldSpec
  deriving DecidableEq
inductive FieldList : Type where
  | nil : FieldList
  | cons : String → FieldSpec → FieldList → FieldList
  deriving DecidableEq
end

/- The generated verbose-schema nodes (`TProperties` in types/schema.ts):
either `IEncryptedField` `{ encrypt: { keyId, bsonType, algorithm } }`
(key ids abstracted to numbers, algorithm as enum string value) or
`ICollectionEncryptionSchema` `{ bsonType: "object", properties }`. -/
mutual
inductive TProperties : Type where
  | encryptedField : (keyId : List Nat) → (bsonType : String) → (algorithm : String) →
      TProperties
  | objectSchema : TPropList → TProperties
  deriving DecidableEq
inductive TPropList : Type where
  | nil : TPropList
  | cons : String → TProperties → TPropList → TPropList
  deriving DecidableEq
end

/-- `String.prototype.toLowerCase()` on a type tag (character-wise
lowering; the tags are ASCII). -/
def jsToLowerCase (s : String) : String := ⟨s.data.map Char.toLower⟩

/-- The algorithm `switch` in `processFields`: the listed types get
Random, every other tag falls through to Deterministic. -/
def switchAlgorithm (bsonType : String) : String :=
  if bsonType == "array" || bsonType == "object" || bsonType == "bool"
      || bsonType == "double" || bsonType == "decimal128" then
    EEncryptionAlgorithm.RANDOM
  else
    EEncryptionAlgorithm.DETERMINISTIC

/- `EncryptionSchemaService.processFields(fields, collectionName,
parentPath = "")`.  `resolve` abstracts `dekManager.getDEK` as a pure
key-id assignment; alongside the produced properties, the ordered list
of resolver calls (the field paths passed to `getDEK`) is recorded.
Note that the source fetches a DEK for EVERY field — object-valued
fields included — before branching on the field's kind; for an
object-valued field the fetched id is discarded.  `processField` is the
per-field remainder of the loop body after the fetch: the branch
condition `bsonType === "object" && typeof fieldType === "object"`
holds exactly for nested sub-objects. -/
mutual
def processFields (resolve : String → Nat) :
    FieldList → String → String → TPropList × List String
  | .nil, _, _ => (.nil, [])
  | .cons fieldName fieldType tl, collectionName, parentPath =>
      let fullPath := if parentPath == "" then collectionName ++ "." ++ fieldName
                      else parentPath ++ "." ++ fieldName
      let dekId := resolve fullPath
      let node := processField resolve fieldType collectionName fullPath dekId
      let rest := processFields resolve tl collectionName parentPath
      (.cons fieldName node.1 rest.1, fullPath :: (node.2 ++ rest.2))
def processField (resolve : String → Nat) :
    FieldSpec → String → String → Nat → TProperties × List String
  | .nested sub, collectionName, fullPath, _ =>
      let subR := processFields resolve sub collectionName fullPath
      (.objectSchema subR.1, subR.2)
  | .tag s, _, _, dekId =>
      let bsonType := jsToLowerCase s
      (.encryptedField [dekId] bsonType (switchAlgorithm bsonType), [])
end

/-- JS object property assignment `m[k] = v` on a map rendered as an
ordered association list: overwrite in place, else append. -/
def jsSet : List (String × TProperties) → String → TProperties →
    List (String × TProperties)
  | [], k, v => [(k, v)]
  | (k0, v0) :: rest, k, v =>
      if k0 == k then (k0, v) :: rest else (k0, v0) :: jsSet rest k v

/-- `generateCSFLESchema` after file reading and JSON parsing: the
parsed value is an array whose elements are objects mapping collection
names to field maps.  `const [collectionName] = Object.keys(...)` takes
the FIRST key; remaining keys are never consulted.  An element with no
keys at all makes `processFields` fault on `undefined` — a raw
TypeError, modelled as the `Except` error.  Returns the schema map and
all resolver calls in order. -/
def generateCSFLESchemaAux (resolve : String → Nat) :
    List (List (String × FieldList)) → List (String × TProperties) → List String →
    Except Unit (List (String × TProperties) × List String)
  | [], acc, calls => .ok (acc, calls)
  | [] :: _, _, _ => .error ()
  | ((collectionName, fields) :: _) :: rest, acc, calls =>
      let r := processFields resolve fields collectionName ""
      generateCSFLESchemaAux resolve rest
        (jsSet acc collectionName (.objectSchema r.1)) (calls ++ r.2)

/-- `EncryptionSchemaService.generateCSFLESchema` on a parsed schema
array. -/
def generateCSFLESchema (resolve : String → Nat)
    (jsonArray : List (List (String × FieldList))) :
    Except Unit (List (String × TProperties) × List String) :=
  generateCSFLESchemaAux resolve jsonArray [] []

def natListToJArray : List Nat → JArray
  | [] => .nil
  | n :: tl => .cons (.num (Int.ofNat n)) (natListToJArray tl)

/- The JS runtime value of a generated schema node, for feeding the
generated schema to `validateCSFLESchema` (field order as constructed
by the source). -/
mutual
def TProperties.toJValue : TProperties → JValue
  | .encryptedField keyId bsonType algorithm =>
      .obj (.cons "encrypt" (.obj
        (.cons "keyId" (.arr (natListToJArray keyId))
        (.cons "bsonType" (.str bsonType)
        (.cons "algorithm" (.str algorithm) .nil)))) .nil)
  | .objectSchema props =>
      .obj (.cons "bsonType" (.str "object")
        (.cons "properties" (.obj (TPropList.toJFields props)) .nil))
def TPropList.toJFields : TPropList → JFields
  | .nil => .nil
  | .cons k v tl => .cons k (TProperties.toJValue v) (TPropList.toJFields tl)
end

/-- The JS runtime value of a generated schema map. -/
def schemaMapToJValue (m : List (String × TProperties)) : JValue :=
  .obj (m.foldr (fun kv acc => JFields.cons kv.1 kv.2.toJValue acc) .nil)

/-! ## Embedding of `DekManager` (`dekManager.ts`) -/

/-- A key-vault record: the key's `_id` (a Binary, abstracted to a
number) and its alternate-name tags. -/
structure IKeyVaultDocument where
  docId : Nat
  keyAltNames : List String
  deriving DecidableEq

/-- The external key-vault store: its documents in insertion order and
a supply of fresh key ids. -/
structure VaultState where
  docs : List IKeyVaultDocument
  nextKey : Nat
  deriving DecidableEq

/-- `collection.findOne({ keyAltNames: fieldKeyAltName })`: the first
stored document whose alternate-name array contains the name. -/
def findOneByAltName (docs : List IKeyVaultDocument) (name : String) :
    Option IKeyVaultDocument :=
  docs.find? (fun d => d.keyAltNames.contains name)

/-- `ClientEncryption.createDataKey(type, { masterKey, keyAltNames })`:
the store mints a fresh key id, appends a wrapped-key document tagged
with the given alternate names, and returns the new id. -/
def createDataKey (s : VaultState) (keyAltNames : List String) : VaultState × Nat :=
  ({ docs := s.docs ++ [{ docId := s.nextKey, keyAltNames := keyAltNames }],
     nextKey := s.nextKey + 1 }, s.nextKey)

/-- `DekManager.getDEK(fieldKeyAltName)` against the in-memory store
(the success-path semantics): return the existing key id when some
document carries the alternate name, otherwise create a key tagged with
exactly that name and return its id. -/
def getDEK (s : VaultState) (fieldKeyAltName : String) : VaultState × Nat :=
  match findOneByAltName s.docs fieldKeyAltName with
  | some doc => (s, doc.docId)
  | none => createDataKey s [fieldKeyAltName]

/-- Errors escaping `DekManager.getDEK`: either a raw collaborator
error (no taxonomy wrapper) or the `EncryptionError` from errors.ts. -/
inductive DekErr : Type where
  | raw : String → DekErr
  | encryptionError : String → DekErr
  deriving DecidableEq

/-- The collaborator behaviour observed by one `getDEK` run: the
connection attempt, the key-vault lookup, and key creation, each able
to fail with an error message. -/
structure DekCollab where
  connect : Except String Unit
  findOne : String → Except String (Option IKeyVaultDocument)
  createDataKey : String → Except String Nat

/-- `DekManager.getDEK` with failure-aware collaborators.
`await this.mongoClient.connect()` runs BEFORE the try/catch, so its
failure propagates raw; any failure inside the try block is wrapped by
the catch into `EncryptionError("Failed to create or retrieve DEK for
<path>: <cause>")`.  The `finally` close has no effect on the returned
value. -/
def getDEKFallible (c : DekCollab) (fieldKeyAltName : String) : Except DekErr Nat :=
  match c.connect with
  | .error e => .error (.raw e)
  | .ok _ =>
      match (do
        let existing ← c.findOne fieldKeyAltName
        match existing with
        | some doc => pure doc.docId
        | none => c.createDataKey fieldKeyAltName : Except String Nat) with
      | .ok k => .ok k
      | .error e =>
          .error (.encryptionError
            ("Failed to create or retrieve DEK for " ++ fieldKeyAltName ++ ": " ++ e))

/-! ## Embedding of the KMS provider union and `ServerEncryptionService` -/

structure AwsMasterKey where
  region : String
  key : String
  endpoint : Option String
  deriving DecidableEq

structure AzureMasterKey where
  keyVaultEndpoint : String
  keyName : String
  keyVersion : Option String
  deriving DecidableEq

structure GcpMasterKey where
  projectId : String
  location : String
  keyRing : String
  keyName : String
  keyVersion : Option String
  endpoint : Option String
  deriving DecidableEq

structure KmipMasterKey where
  keyId : Option String
  deriving DecidableEq

/-- The closed provider union `IKMSProvider` (types/kms.ts), each arm
carrying its credentials and master-key descriptor. -/
inductive IKMSProvider : Type where
  | localKms : (key : String) → IKMSProvider
  | aws : (accessKeyId secretAccessKey : String) → (sessionToken : Option String) →
      AwsMasterKey → IKMSProvider
  | azure : (clientId clientSecret tenantId : String) → AzureMasterKey → IKMSProvider
  | gcp : (email privateKey : String) → GcpMasterKey → IKMSProvider
  | kmip : (endpoint : String) → (masterKey : Option KmipMasterKey) → IKMSProvider
  deriving DecidableEq

/-- The credential shapes returned by `getKmsProviderConfig`. -/
inductive KmsProviderConfig : Type where
  | localConf : (key : String) → KmsProviderConfig
  | awsConf : (accessKeyId secretAccessKey : String) → (sessionToken : Option String) →
      KmsProviderConfig
  | azureConf : (clientId clientSecret tenantId : String) → KmsProviderConfig
  | gcpConf : (email privateKey : String) → KmsProviderConfig
  | kmipConf : (endpoint : String) → KmsProviderConfig
  deriving DecidableEq

/-- `DekManager.getKmsProviderConfig`: a total mapping over the closed
provider union; the `default` throw is unreachable. -/
def getKmsProviderConfig : IKMSProvider → KmsProviderConfig
  | .localKms key => .localConf key
  | .aws a sk st _ => .awsConf a sk st
  | .azure ci cs t _ => .azureConf ci cs t
  | .gcp e pk _ => .gcpConf e pk
  | .kmip endpoint _ => .kmipConf endpoint

/-- The master-key descriptors returned by `getMasterKey`. -/
inductive MasterKeyConfig : Type where
  | awsKey : (region key : String) → (endpoint : Option String) → MasterKeyConfig
  | azureKey : (keyVaultEndpoint keyName : String) → (keyVersion : Option String) →
      MasterKeyConfig
  | gcpKey : (projectId location keyRing keyName : String) →
      (keyVersion endpoint : Option String) → MasterKeyConfig
  | kmipKey : KmipMasterKey → MasterKeyConfig
  deriving DecidableEq

/-- `DekManager.getMasterKey`: `undefined` for local, the provider's
descriptor otherwise; kmip passes its possibly-absent masterKey through
unchanged. -/
def getMasterKey : IKMSProvider → Option MasterKeyConfig
  | .localKms _ => none
  | .aws _ _ _ mk => some (.awsKey mk.region mk.key mk.endpoint)
  | .azure _ _ _ mk => some (.azureKey mk.keyVaultEndpoint mk.keyName mk.keyVersion)
  | .gcp _ _ mk =>
      some (.gcpKey mk.projectId mk.location mk.keyRing mk.keyName mk.keyVersion mk.endpoint)
  | .kmip _ mk => mk.map .kmipKey

structure IKeyVault where
  database : String
  collection : String
  deriving DecidableEq

/-- Error classes thrown by `ServerEncryptionService`. -/
inductive SvcErr : Type where
  | configurationError : String → SvcErr
  | validationError : String → SvcErr
  deriving DecidableEq

/-- `error.message` of a validator error. -/
def VErr.message : VErr → String
  | .schemaError m => m
  | .typeError m => m

/-- The `autoEncryption` configuration assembled on success
(`extraOptions`, which resolves the shared-library file path, is
filesystem configuration outside this embedding). -/
structure AutoEncryptionConfig where
  keyVaultNamespace : String
  kmsProviders : KmsProviderConfig
  schemaMap : JValue
  deriving DecidableEq

/-- `ServerEncryptionService.buildEncryptionConfig` (src/encryption.ts):
the key-vault field checks, the schema-presence check, schema
validation (failures re-thrown as `ValidationError`), then the provider
switch — whose `default` arm, reached exactly by a kmip provider,
throws `ConfigurationError("Unsupported KMS provider: kmip")`. -/
def buildEncryptionConfig (keyVault : IKeyVault) (kmsProvider : IKMSProvider)
    (schema : Option JValue) : Except SvcErr AutoEncryptionConfig :=
  if keyVault.database == "" || keyVault.collection == "" then
    .error (.configurationError
      "Invalid key vault configuration. Database and collection are required.")
  else
    match schema with
    | none => .error (.configurationError "Encryption schema is required")
    | some s =>
        match validateCSFLESchema s "root" with
        | .error e => .error (.validationError ("Schema validation failed: " ++ e.message))
        | .ok _ =>
            let ns := keyVault.database ++ "." ++ keyVault.collection
            match kmsProvider with
            | .localKms key =>
                .ok { keyVaultNamespace := ns, kmsProviders := .localConf key,
                      schemaMap := s }
            | .aws a sk st _ =>
                .ok { keyVaultNamespace := ns, kmsProviders := .awsConf a sk st,
                      schemaMap := s }
            | .azure ci cs t _ =>
                .ok { keyVaultNamespace := ns, kmsProviders := .azureConf ci cs t,
                      schemaMap := s }
            | .gcp e pk _ =>
                .ok { keyVaultNamespace := ns, kmsProviders := .gcpConf e pk,
                      schemaMap := s }
            | .kmip _ _ =>
                .error (.configurationError "Unsupported KMS provider: kmip")

/-! ## Validator semantics: acceptance characterised by a Bool predicate -/

/-- Acceptance of the first `properties` block: when a truthy
`properties` is present, `bsonType` must be the string `"object"` and
the properties value must have at least one key. -/
def propsShapeOk (o : JValue) : Bool :=
  match jsGet o "properties" with
  | some props =>
      if truthy props then
        (!(!isStrEqOpt (jsGet o "bsonType") "object")) && (!(jsKeysLength props == 0))
      else true
  | none => true

/-- Acceptance of `validateEncrypt` (path-independent). -/
def encValid (e : JValue) : Bool :=
  (!(jsTypeof e != "object"))
  && ((!isNull e)
  && ((truthyOpt (jsGet e "bsonType"))
  && ((truthyOpt (jsGet e "algorithm"))
  && (!(isStrEqOpt (jsGet e "algorithm") EEncryptionAlgorithm.DETERMINISTIC
       && !includesJ deterministicSupportedTypes (jsGet e "bsonType"))))))

/-- Acceptance of the `encrypt` block: a truthy `encrypt` value must
satisfy `validateEncrypt`. -/
def encryptOk (o : JValue) : Bool :=
  match jsGet o "encrypt" with
  | some enc => if truthy enc then encValid enc else true
  | none => true

/-- Acceptance of the allowed-keys scan. -/
def keysAllowed (keys : List String) : Bool :=
  keys.all (fun key => allowedKeys.contains key)

/-- Acceptance of the recursion into a truthy `properties` value
(`good` stands for recursive node acceptance). -/
def propsRecGood (good : JValue → Bool) (o : JValue) : Bool :=
  match jsGet o "properties" with
  | some props =>
      if truthy props then (jsEntries props).all (fun kv => good kv.2) else true
  | none => true

/-- Acceptance of the `patternProperties` block. -/
def patternGood (good : JValue → Bool) (o : JValue) : Bool :=
  match jsGet o "patternProperties" with
  | some pp =>
      if truthy pp then
        (!(!isStrEqOpt (jsGet o "bsonType") "object"))
        && (jsEntries pp).all (fun kv => good kv.2)
      else true
  | none => true

/-- The validator's acceptance condition, with the same fuel discipline
as `recursiveValidateF`: a node passes iff it is a non-null object-typed
value, its `properties` shape and `encrypt` blocks pass, every entry of
a truthy `properties` (and of a truthy `patternProperties`, whose own
`bsonType` requirement must also hold) passes recursively, and all its
keys are on the allow-list. -/
def goodNodeF : Nat → JValue → Bool
  | 0, _ => false
  | fuel + 1, o =>
      (!(jsTypeof o != "object" || isNull o))
      && (propsShapeOk o
      && (encryptOk o
      && (propsRecGood (goodNodeF fuel) o
      && (patternGood (goodNodeF fuel) o
      && keysAllowed (jsKeys o)))))

/-- Acceptance of a single schema node (fuel = its height bound). -/
def goodNode (o : JValue) : Bool := goodNodeF (jheight o) o

/-- Acceptance of a whole schema map: the top-level guard of
`validateCSFLESchema` plus per-collection acceptance (a collection
value failing the loop's non-null-object check also fails
`goodNode`). -/
def goodSchema (s : JValue) : Bool :=
  (!(!truthy s || jsTypeof s != "object" || jsKeysLength s == 0))
  && (jsEntries s).all (fun kv => goodNode kv.2)

lemma jheight_pos (o : JValue) : 1 ≤ jheight o := by
  cases o <;> simp [jheight]

lemma jheightVal_lookup : ∀ {fs : JFields} {k : String} {v : JValue},
    (k == "properties" || k == "patternProperties") = true →
    JFields.lookup fs k = some v → jheightVal v ≤ jheightF fs
  | .nil, k, v, _, h => by simp [JFields.lookup] at h
  | .cons k0 v0 tl, k, v, hkey, h => by
      simp only [JFields.lookup] at h
      by_cases hk : (k0 == k) = true
      · rw [if_pos hk] at h
        cases h
        have hk0 : (k0 == "properties" || k0 == "patternProperties") = true := by
          have : k0 = k := by simpa using hk
          rw [this]; exact hkey
        simp [jheightF, hk0, Nat.le_max_left]
      · rw [if_neg hk] at h
        exact le_trans (jheightVal_lookup hkey h) (by simp [jheightF, Nat.le_max_right])

lemma jheight_toList : ∀ {fs : JFields} {kv : String × JValue},
    kv ∈ JFields.toList fs → jheight kv.2 ≤ jheightVals fs
  | .nil, kv, h => by simp [JFields.toList] at h
  | .cons k0 v0 tl, kv, h => by
      rcases (by simpa [JFields.toList] using h :
          kv = (k0, v0) ∨ kv ∈ JFields.toList tl) with h1 | h1
      · subst h1
        simp [jheightVals, Nat.le_max_left]
      · exact le_trans (jheight_toList h1) (by simp [jheightVals, Nat.le_max_right])

lemma jheight_entriesArr : ∀ {xs : JArray} {i : Nat} {kv : String × JValue},
    kv ∈ entriesArr i xs → jheight kv.2 ≤ jheightElems xs
  | .nil, i, kv, h => by simp [entriesArr] at h
  | .cons v0 tl, i, kv, h => by
      rcases (by simpa [entriesArr] using h :
          kv = (toString i, v0) ∨ kv ∈ entriesArr (i + 1) tl) with h1 | h1
      · subst h1
        simp [jheightElems, Nat.le_max_left]
      · exact le_trans (jheight_entriesArr h1) (by simp [jheightElems, Nat.le_max_right])

lemma jheight_entriesChars : ∀ {cs : List Char} {i : Nat} {kv : String × JValue},
    kv ∈ entriesChars i cs → jheight kv.2 = 1
  | [], i, kv, h => by simp [entriesChars] at h
  | c :: tl, i, kv, h => by
      rcases (by simpa [entriesChars] using h :
          kv = (toString i, JValue.str (String.singleton c)) ∨
            kv ∈ entriesChars (i + 1) tl) with h1 | h1
      · subst h1; simp [jheight]
      · exact jheight_entriesChars h1

/-- Entries of a value stay within the value's entry bound. -/
lemma jheight_entries {v : JValue} {kv : String × JValue}
    (h : kv ∈ jsEntries v) : jheight kv.2 ≤ jheightVal v := by
  cases v with
  | obj fs =>
      simpa [jheightVal] using jheight_toList (by simpa [jsEntries] using h)
  | arr xs =>
      simpa [jheightVal] using jheight_entriesArr (by simpa [jsEntries] using h)
  | str s =>
      have h1 := jheight_entriesChars (by simpa [jsEntries] using h)
      simp [h1, jheightVal]
  | num n => simp [jsEntries] at h
  | jbool b => simp [jsEntries] at h
  | null => simp [jsEntries] at h

lemma seq_isOk {β : Type} (a : Except VErr Unit) (f : Unit → Except VErr β) :
    (a >>= f).isOk = (a.isOk && (f ()).isOk) := by
  cases a with
  | ok u => cases u; simp [Bind.bind, Except.bind, Except.isOk, Except.toBool]
  | error e => simp [Bind.bind, Except.bind, Except.isOk, Except.toBool]

lemma throw_isOk {β : Type} (e : VErr) :
    (throw e : Except VErr β).isOk = false := rfl

lemma pure_isOk {β : Type} (b : β) :
    (pure b : Except VErr β).isOk = true := rfl

lemma checkNodeType_isOk (o : JValue) (p : String) :
    (checkNodeType o p).isOk = (!(jsTypeof o != "object" || isNull o)) := by
  unfold checkNodeType
  by_cases h : (jsTypeof o != "object" || isNull o) = true
  · simp [h, throw_isOk]
  · simp only [Bool.not_eq_true] at h
    simp [h, pure_isOk]

lemma checkPropertiesShape_isOk (o : JValue) (p : String) :
    (checkPropertiesShape o p).isOk = propsShapeOk o := by
  unfold checkPropertiesShape propsShapeOk
  cases hp : jsGet o "properties" with
  | none => rfl
  | some props =>
      by_cases ht : truthy props
      · simp only [ht, if_true]
        by_cases hb : (!isStrEqOpt (jsGet o "bsonType") "object") = true
        · simp [hb, throw_isOk]
        · by_cases hz : (jsKeysLength props == 0) = true
          · simp [hb, hz, throw_isOk]
          · simp [hb, hz, pure_isOk]
      · simp [ht, pure_isOk]

lemma validateEncrypt_isOk (f : String) (e : JValue) :
    (validateEncrypt f e).isOk = encValid e := by
  unfold validateEncrypt encValid
  by_cases h1 : (jsTypeof e != "object") = true
  · simp [h1, throw_isOk]
  · by_cases h2 : isNull e
    · simp [h1, h2, throw_isOk]
    · by_cases h3 : truthyOpt (jsGet e "bsonType")
      · by_cases h4 : truthyOpt (jsGet e "algorithm")
        · by_cases h5 : (isStrEqOpt (jsGet e "algorithm")
              EEncryptionAlgorithm.DETERMINISTIC
              && !includesJ deterministicSupportedTypes (jsGet e "bsonType")) = true
          · simp [h1, h2, h3, h4, h5, throw_isOk]
          · simp [h1, h2, h3, h4, h5, pure_isOk]
        · simp [h1, h2, h3, h4, throw_isOk]
      · simp [h1, h2, h3, throw_isOk]

lemma checkEncrypt_isOk (o : JValue) (p : String) :
    (checkEncrypt o p).isOk = encryptOk o := by
  unfold checkEncrypt encryptOk
  cases hp : jsGet o "encrypt" with
  | none => rfl
  | some enc =>
      by_cases ht : truthy enc
      · simp [ht, validateEncrypt_isOk]
      · simp [ht, pure_isOk]

lemma checkAllowedKeys_isOk : ∀ (keys : List String) (p : String),
    (checkAllowedKeys keys p).isOk = keysAllowed keys
  | [], _ => rfl
  | key :: rest, p => by
      have ih := checkAllowedKeys_isOk rest p
      unfold checkAllowedKeys
      by_cases hk : key ∈ allowedKeys
      · simp [keysAllowed, hk, ih]
      · simp [keysAllowed, hk, throw_isOk]

lemma forEachEntry_isOk (step : String × JValue → Except VErr Unit) :
    ∀ (entries : List (String × JValue)),
      (forEachEntry step entries).isOk = entries.all (fun kv => (step kv).isOk)
  | [] => rfl
  | kv :: rest => by
      have ih := forEachEntry_isOk step rest
      simp [forEachEntry, seq_isOk, ih]

lemma all_congr_mem {α : Type} {l : List α} {f g : α → Bool}
    (h : ∀ a ∈ l, f a = g a) : l.all f = l.all g := by
  induction l with
  | nil => rfl
  | cons a tl ih =>
      simp only [List.all_cons]
      rw [h a (by simp), ih (fun b hb => h b (by simp [hb]))]

/-- The entries the `properties` recursion visits. -/
def propsRecGoodEntries (o : JValue) : List (String × JValue) :=
  match jsGet o "properties" with
  | some props => jsEntries props
  | none => []

/-- The entries the `patternProperties` recursion visits. -/
def patternGoodEntries (o : JValue) : List (String × JValue) :=
  match jsGet o "patternProperties" with
  | some pp => jsEntries pp
  | none => []

lemma propsRecursion_isOk (recv : JValue → String → Except VErr Unit)
    (good : JValue → Bool) (o : JValue) (p : String)
    (hcong : ∀ kv ∈ propsRecGoodEntries o, ∀ q, (recv kv.2 q).isOk = good kv.2) :
    (propsRecursion recv o p).isOk = propsRecGood good o := by
  unfold propsRecursion propsRecGood
  unfold propsRecGoodEntries at hcong
  cases hp : jsGet o "properties" with
  | none => rfl
  | some props =>
      rw [hp] at hcong
      by_cases ht : truthy props
      · simp only [ht, if_true]
        rw [forEachEntry_isOk]
        exact all_congr_mem (fun kv hkv => hcong kv hkv _)
      · simp [ht, pure_isOk]

lemma patternRecursion_isOk (recv : JValue → String → Except VErr Unit)
    (good : JValue → Bool) (o : JValue) (p : String)
    (hcong : ∀ kv ∈ patternGoodEntries o, ∀ q, (recv kv.2 q).isOk = good kv.2) :
    (patternRecursion recv o p).isOk = patternGood good o := by
  unfold patternRecursion patternGood
  unfold patternGoodEntries at hcong
  cases hp : jsGet o "patternProperties" with
  | none => rfl
  | some pp =>
      rw [hp] at hcong
      by_cases ht : truthy pp
      · simp only [ht, if_true]
        by_cases hb : (!isStrEqOpt (jsGet o "bsonType") "object") = true
        · simp [hb, throw_isOk]
        · simp only [hb, Bool.false_eq_true, if_false]
          rw [forEachEntry_isOk]
          simp only [Bool.not_false, Bool.true_and]
          exact all_congr_mem (fun kv hkv => hcong kv hkv _)
      · simp [ht, pure_isOk]

/-- Main characterisation: with fuel at least the node's height bound,
`recursiveValidateF` accepts exactly the nodes satisfying `goodNodeF`
at the same fuel. -/
lemma recursiveValidateF_isOk :
    ∀ (fuel : Nat) (o : JValue) (p : String), jheight o ≤ fuel →
      (recursiveValidateF fuel o p).isOk = goodNodeF fuel o := by
  intro fuel
  induction fuel with
  | zero =>
      intro o p h
      exact absurd (le_trans (jheight_pos o) h) (by simp)
  | succ fuel ih =>
      intro o p h
      have hents : ∀ (key : String) (props : JValue),
          (key == "properties" || key == "patternProperties") = true →
          jsGet o key = some props →
          ∀ kv ∈ jsEntries props, jheight kv.2 ≤ fuel := by
        intro key props hkey hp kv hkv
        cases o with
        | obj fields =>
            have h1 : jheightVal props ≤ jheightF fields :=
              jheightVal_lookup hkey (by simpa [jsGet] using hp)
            have h2 : jheight kv.2 ≤ jheightVal props := jheight_entries hkv
            have h3 : (1 : Nat) + jheightF fields ≤ fuel + 1 := by
              simpa [jheight] using h
            omega
        | str s => simp [jsGet] at hp
        | num n => simp [jsGet] at hp
        | jbool b => simp [jsGet] at hp
        | null => simp [jsGet] at hp
        | arr xs => simp [jsGet] at hp
      show (recursiveValidateF (fuel + 1) o p).isOk = goodNodeF (fuel + 1) o
      have hprops : (propsRecursion (recursiveValidateF fuel) o p).isOk =
          propsRecGood (goodNodeF fuel) o := by
        apply propsRecursion_isOk
        intro kv hkv q
        unfold propsRecGoodEntries at hkv
        cases hp : jsGet o "properties" with
        | none => rw [hp] at hkv; simp at hkv
        | some props =>
            rw [hp] at hkv
            exact ih kv.2 q (hents "properties" props (by decide) hp kv hkv)
      have hpat : (patternRecursion (recursiveValidateF fuel) o p).isOk =
          patternGood (goodNodeF fuel) o := by
        apply patternRecursion_isOk
        intro kv hkv q
        unfold patternGoodEntries at hkv
        cases hp : jsGet o "patternProperties" with
        | none => rw [hp] at hkv; simp at hkv
        | some pp =>
            rw [hp] at hkv
            exact ih kv.2 q (hents "patternProperties" pp (by decide) hp kv hkv)
      simp only [recursiveValidateF, goodNodeF]
      rw [seq_isOk, seq_isOk, seq_isOk, seq_isOk, seq_isOk]
      rw [checkNodeType_isOk, checkPropertiesShape_isOk, checkEncrypt_isOk,
        checkAllowedKeys_isOk, hprops, hpat]

/-- `recursiveValidate o p` accepts exactly `goodNode o`. -/
lemma recursiveValidate_isOk (o : JValue) (p : String) :
    (recursiveValidate o p).isOk = goodNode o :=
  recursiveValidateF_isOk (jheight o) o p le_rfl

lemma goodNode_not_object {o : JValue}
    (h : (!(jsTypeof o != "object" || isNull o)) = false) : goodNode o = false := by
  unfold goodNode
  rw [(Nat.succ_pred_eq_of_pos (jheight_pos o)).symm]
  simp only [goodNodeF]
  rw [h]
  simp

lemma validateCollections_isOk : ∀ (l : List (String × JValue)) (cn : String),
    (validateCollections l cn).isOk = l.all (fun kv => goodNode kv.2)
  | [], _ => rfl
  | (k, v) :: rest, cn => by
      have ih := validateCollections_isOk rest cn
      unfold validateCollections
      by_cases hv : (jsTypeof v != "object" || isNull v) = true
      · have : goodNode v = false := goodNode_not_object (by simp [hv])
        simp [hv, throw_isOk, this]
      · simp only [hv, Bool.false_eq_true, if_neg, ite_false]
        rw [seq_isOk, recursiveValidate_isOk, ih]
        simp

/-- `validateCSFLESchema` succeeds exactly on `goodSchema` inputs. -/
lemma validateCSFLESchema_isOk (s : JValue) (cn : String) :
    (validateCSFLESchema s cn).isOk = goodSchema s := by
  unfold validateCSFLESchema goodSchema
  by_cases htop : (!truthy s || jsTypeof s != "object" || jsKeysLength s == 0) = true
  · simp [htop, throw_isOk, Except.isOk, Except.toBool]
  · simp only [htop, Bool.false_eq_true, if_false]
    have hcoll := validateCollections_isOk (jsEntries s) cn
    simp only [Bool.not_false, Bool.true_and]
    cases hres : validateCollections (jsEntries s) cn with
    | ok u =>
        cases u
        rw [hres] at hcoll
        have hall : (jsEntries s).all (fun kv => goodNode kv.2) = true := by
          rw [← hcoll]; rfl
        rw [hall]
        simp [Bind.bind, Except.bind, hres, Except.isOk, Except.toBool, pure, Except.pure]
    | error e =>
        rw [hres] at hcoll
        have hall : (jsEntries s).all (fun kv => goodNode kv.2) = false := by
          rw [← hcoll]; rfl
        rw [hall]
        cases e <;> simp [Bind.bind, Except.bind, hres, Except.isOk, Except.toBool]


/-! ## Claim-side reference sets (the spec's words, for comparison) -/

/-- The deterministic-compatible type set exactly as the spec words it:
`{string, int32, int64, date, objectId, uuid}`.  (The source's
`deterministicSupportedTypes` uses the BSON aliases `int` and `long`
instead of `int32` and `int64`.) -/
def specDeterministicCompatibleTypes : List String :=
  ["string", "int32", "int64", "date", "objectId", "uuid"]

/-- The fixed set of semantic type names enumerated by the spec. -/
def specSupportedTypeTags : List String :=
  ["double", "string", "object", "array", "binary", "undefined", "objectId",
   "bool", "date", "null", "regex", "dbPointer", "javascript", "symbol",
   "javascriptWithScope", "int32", "timestamp", "int64", "decimal128",
   "minKey", "maxKey"]

/-- The Random-algorithm type set of the expansion switch, as the spec
words it. -/
def specRandomTypes : List String :=
  ["array", "object", "bool", "double", "decimal128"]

/-- The `switch` in `processFields` chooses Random exactly on the
spec's Random set and Deterministic otherwise. -/
lemma switchAlgorithm_mem (b : String) :
    switchAlgorithm b =
      if b ∈ specRandomTypes then EEncryptionAlgorithm.RANDOM
      else EEncryptionAlgorithm.DETERMINISTIC := by
  have hcond : ((b == "array" || b == "object" || b == "bool"
      || b == "double" || b == "decimal128") = true) ↔ b ∈ specRandomTypes := by
    simp [specRandomTypes, or_assoc]
  unfold switchAlgorithm
  exact if_congr hcond rfl rfl

/-! ## Claim theorems -/

/-- The end-to-end scenario input of the spec:
`[{ "app.users": { "ssn": "string", "tags": "array", "profile": { "email": "string" } } }]`. -/
def c2Input : List (List (String × FieldList)) :=
  [[("app.users", .cons "ssn" (.tag "string")
      (.cons "tags" (.tag "array")
      (.cons "profile" (.nested (.cons "email" (.tag "string") .nil)) .nil)))]]

/-- The verbose schema the scenario actually produces. -/
def c2Expected (resolve : String → Nat) : List (String × TProperties) :=
  [("app.users", .objectSchema
      (.cons "ssn" (.encryptedField [resolve "app.users.ssn"] "string"
        EEncryptionAlgorithm.DETERMINISTIC)
      (.cons "tags" (.encryptedField [resolve "app.users.tags"] "array"
        EEncryptionAlgorithm.RANDOM)
      (.cons "profile" (.objectSchema
        (.cons "email" (.encryptedField [resolve "app.users.profile.email"] "string"
          EEncryptionAlgorithm.DETERMINISTIC) .nil))
      .nil))))]

/-- C2 counterexample: on the spec's end-to-end input the expansion
calls the DEK resolver FOUR times, not three — the intermediate
object-valued field `app.users.profile` also gets a `getDEK` call
(whose result is discarded) — refuting "calls the key resolver exactly
3 times". -/
theorem C2_counterexample :
    generateCSFLESchema (fun _ => 0) c2Input =
      .ok (c2Expected (fun _ => 0),
        ["app.users.ssn", "app.users.tags", "app.users.profile",
         "app.users.profile.email"]) ∧
    ["app.users.ssn", "app.users.tags", "app.users.profile",
     "app.users.profile.email"].length ≠ 3 := by
  constructor
  · rfl
  · decide

set_option maxHeartbeats 2000000 in
/-- C2 (amended): expanding the scenario input calls the resolver
exactly 4 times, in order `app.users.ssn`, `app.users.tags`,
`app.users.profile` (the object-valued field, fetched then discarded),
`app.users.profile.email`; `ssn` and `profile.email` get
Deterministic/string, `tags` gets Random/array, each with a singleton
keyId list; and the resulting verbose schema passes
`validateCSFLESchema`. -/
theorem C2_amended_expansion_scenario (resolve : String → Nat) :
    generateCSFLESchema resolve c2Input =
      .ok (c2Expected resolve,
        ["app.users.ssn", "app.users.tags", "app.users.profile",
         "app.users.profile.email"]) ∧
    (validateCSFLESchema (schemaMapToJValue (c2Expected resolve)) "root").isOk = true := by
  constructor
  · rfl
  · rfl

/-- C3 counterexample: an input element with two collection-name keys
is not rejected — `generateCSFLESchema` silently processes the first
key only, and the resolver IS called (for the first collection's
field), refuting both the structural rejection and the
no-resolver-calls condition. -/
theorem C3_counterexample :
    generateCSFLESchema (fun _ => 0)
      [[("a.b", .cons "f" (.tag "string") .nil),
        ("c.d", .cons "g" (.tag "string") .nil)]] =
      .ok ([("a.b", .objectSchema
          (.cons "f" (.encryptedField [0] "string"
            EEncryptionAlgorithm.DETERMINISTIC) .nil))],
        ["a.b.f"]) := by
  rfl

lemma generateCSFLESchemaAux_first_key (resolve : String → Nat) :
    ∀ (elements : List (List (String × FieldList)))
      (acc : List (String × TProperties)) (calls : List String),
      (∀ el ∈ elements, el ≠ []) →
      generateCSFLESchemaAux resolve elements acc calls =
        generateCSFLESchemaAux resolve (elements.map (fun el => el.take 1)) acc calls ∧
      (generateCSFLESchemaAux resolve elements acc calls).isOk = true
  | [], acc, calls, _ => by constructor <;> rfl
  | [] :: rest, acc, calls, h => absurd rfl (h [] (by simp))
  | ((collectionName, fields) :: others) :: rest, acc, calls, h => by
      have ih := generateCSFLESchemaAux_first_key resolve rest
        (jsSet acc collectionName
          (.objectSchema (processFields resolve fields collectionName "").1))
        (calls ++ (processFields resolve fields collectionName "").2)
        (fun el hel => h el (by simp [hel]))
      constructor
      · show generateCSFLESchemaAux resolve rest _ _ = _
        rw [ih.1]
        rfl
      · exact ih.2

/-- C3 (amended): an input element carrying two or more collection-name
keys is NOT rejected: expansion uses only the element's first key (the
result is the same as if every element kept only its first key) and
succeeds, with resolver calls made for that first collection's fields.
(An element with no keys at all would instead fault on `undefined`.) -/
theorem C3_amended_first_key_only (resolve : String → Nat)
    (elements : List (List (String × FieldList)))
    (h : ∀ el ∈ elements, el ≠ []) :
    generateCSFLESchema resolve elements =
      generateCSFLESchema resolve (elements.map (fun el => el.take 1)) ∧
    (generateCSFLESchema resolve elements).isOk = true :=
  generateCSFLESchemaAux_first_key resolve elements [] [] h

/-- C3 witness: the amended statement at the two-key element input. -/
theorem C3_witness :
    (∀ el ∈ [[("a.b", FieldList.cons "f" (.tag "string") .nil),
              ("c.d", FieldList.cons "g" (.tag "string") .nil)]], el ≠ []) ∧
    (generateCSFLESchema (fun _ => 1)
        [[("a.b", FieldList.cons "f" (.tag "string") .nil),
          ("c.d", FieldList.cons "g" (.tag "string") .nil)]] =
      generateCSFLESchema (fun _ => 1)
        [[("a.b", FieldList.cons "f" (.tag "string") .nil)]] ∧
     (generateCSFLESchema (fun _ => 1)
        [[("a.b", FieldList.cons "f" (.tag "string") .nil),
          ("c.d", FieldList.cons "g" (.tag "string") .nil)]]).isOk = true) := by
  refine ⟨by decide, ?_⟩
  exact C3_amended_first_key_only (fun _ => 1) _ (by decide)

/-- C4 counterexample: the unrecognized type tag "foo" raises no
validation error during expansion — an EncryptedFieldNode is emitted
for it (with the Deterministic algorithm), refuting "raises a
validation error naming the field path and listing the valid types". -/
theorem C4_counterexample :
    generateCSFLESchema (fun _ => 0)
      [[("db.coll", .cons "f" (.tag "foo") .nil)]] =
      .ok ([("db.coll", .objectSchema
          (.cons "f" (.encryptedField [0] "foo"
            EEncryptionAlgorithm.DETERMINISTIC) .nil))],
        ["db.coll.f"]) := by
  rfl

/-- C4 (amended): schema expansion performs NO type-tag validation at
all: for EVERY tag string `t` — recognized or not — expanding
`[{ "db.coll": { "f": t } }]` succeeds and emits an EncryptedFieldNode
with the lower-cased tag and the Random/Deterministic choice of the
fixed switch; no error naming the field path or listing valid types is
raised.  (Unrecognized tags are only caught later, if the caller runs
`validateCSFLESchema` on the result.) -/
theorem C4_amended_no_tag_validation (resolve : String → Nat) (t : String) :
    generateCSFLESchema resolve [[("db.coll", .cons "f" (.tag t) .nil)]] =
      .ok ([("db.coll", .objectSchema
          (.cons "f" (.encryptedField [resolve "db.coll.f"] (jsToLowerCase t)
            (if jsToLowerCase t ∈ specRandomTypes then EEncryptionAlgorithm.RANDOM
             else EEncryptionAlgorithm.DETERMINISTIC)) .nil))],
        ["db.coll.f"]) := by
  rw [← switchAlgorithm_mem]
  rfl

/-- C5: for every supported primitive type tag T, expanding the
single-field schema `[{ "db.coll": { "f": T } }]` produces an
EncryptedFieldNode whose bsonType is the lower-cased form of T, whose
algorithm is Random exactly when the normalized type is in
{array, object, bool, double, decimal128} and Deterministic otherwise,
with a singleton keyId list, after a single resolver call for
`db.coll.f`. -/
theorem C5_round_trip_type_mapping (resolve : String → Nat) (T : String)
    (hT : T ∈ specSupportedTypeTags) :
    generateCSFLESchema resolve [[("db.coll", .cons "f" (.tag T) .nil)]] =
      .ok ([("db.coll", .objectSchema
          (.cons "f" (.encryptedField [resolve "db.coll.f"] (jsToLowerCase T)
            (if jsToLowerCase T ∈ specRandomTypes then EEncryptionAlgorithm.RANDOM
             else EEncryptionAlgorithm.DETERMINISTIC)) .nil))],
        ["db.coll.f"]) := by
  rw [← switchAlgorithm_mem]
  rfl

/-- C5 witness: the round-trip property at T = "objectId". -/
theorem C5_witness :
    "objectId" ∈ specSupportedTypeTags ∧
    generateCSFLESchema (fun _ => 7) [[("db.coll", .cons "f" (.tag "objectId") .nil)]] =
      .ok ([("db.coll", .objectSchema
          (.cons "f" (.encryptedField [7] "objectid"
            (if "objectid" ∈ specRandomTypes then EEncryptionAlgorithm.RANDOM
             else EEncryptionAlgorithm.DETERMINISTIC)) .nil))],
        ["db.coll.f"]) := by
  refine ⟨by decide, ?_⟩
  have h := C5_round_trip_type_mapping (fun _ => 7) "objectId" (by decide)
  simpa using h


/-- A single-collection schema whose one field is Deterministic-encrypted
with bsonType `t` (the canonical shape for the compatibility claims). -/
def detSchema (t : String) : JValue :=
  .obj (.cons "test.coll" (.obj
    (.cons "bsonType" (.str "object")
    (.cons "properties" (.obj (.cons "f" (.obj
      (.cons "encrypt" (.obj
        (.cons "bsonType" (.str t)
        (.cons "algorithm" (.str EEncryptionAlgorithm.DETERMINISTIC)
        (.cons "keyId" (.arr .nil) .nil)))) .nil)) .nil))
    .nil))) .nil)

/-- C1 counterexample: `int32` is in the compatible set as the spec
states it, yet the validator THROWS on a Deterministic field of
bsonType `int32` (the source list holds the BSON aliases `int`/`long`,
not `int32`/`int64`), refuting "Deterministic with a bsonType in that
set is accepted". -/
theorem C1_counterexample :
    "int32" ∈ specDeterministicCompatibleTypes ∧
    validateCSFLESchema (detSchema "int32") "root" =
      .error (.schemaError ("Invalid schema for 'root.f': bsonType 'int32' " ++
        "is not supported with Deterministic algorithm. " ++
        "Supported types for deterministic encryption are: " ++
        "string, int, long, date, objectId, uuid")) := by
  constructor
  · decide
  · decide

set_option maxHeartbeats 4000000 in
/-- C1 (amended): for every non-empty bsonType string `t`, a schema
node declaring Deterministic encryption of bsonType `t` validates
exactly when `t` is in the source's compatible set
{string, int, long, date, objectId, uuid} (`int`/`long`, not the
spec's `int32`/`int64`); otherwise the thrown SchemaError names the
field path, the offending type, and the allowed-type list. -/
theorem C1_amended_deterministic_types (t : String) (ht : t ≠ "") :
    ((validateCSFLESchema (detSchema t) "root").isOk =
      deterministicSupportedTypes.contains t) ∧
    (deterministicSupportedTypes.contains t = false →
      validateCSFLESchema (detSchema t) "root" =
        .error (.schemaError ("Invalid schema for '" ++ "root.f" ++ "': bsonType '" ++
          jsDisplay (.str t) ++
          "' is not supported with Deterministic algorithm. " ++
          "Supported types for deterministic encryption are: " ++
          String.intercalate ", " deterministicSupportedTypes))) := by
  by_cases hc : deterministicSupportedTypes.contains t = true
  · have hmem : t ∈ deterministicSupportedTypes := by simpa using hc
    fin_cases hmem <;> exact ⟨by decide, by decide⟩
  · have hc' : deterministicSupportedTypes.contains t = false := by
      simpa using hc
    have ht' : (t == "") = false := by
      simpa using ht
    have hcm : t ∉ deterministicSupportedTypes := by
      simpa using hc
    have herr : validateCSFLESchema (detSchema t) "root" =
        .error (.schemaError ("Invalid schema for '" ++ "root.f" ++ "': bsonType '" ++
          jsDisplay (.str t) ++
          "' is not supported with Deterministic algorithm. " ++
          "Supported types for deterministic encryption are: " ++
          String.intercalate ", " deterministicSupportedTypes)) := by
      simp [validateCSFLESchema, validateCollections, recursiveValidate,
        recursiveValidateF, detSchema, checkNodeType, checkPropertiesShape,
        checkEncrypt, checkAllowedKeys, validateEncrypt, propsRecursion,
        patternRecursion, forEachEntry, jsGet, JFields.lookup, truthy,
        truthyOpt, jsTypeof, isNull, jsEntries, JFields.toList, jsKeys,
        JFields.keys, jsKeysLength, JFields.length, isStrEqOpt, includesJ,
        displayOpt, jheight, jheightF, jheightVal, jheightVals, jheightElems,
        allowedKeys, EEncryptionAlgorithm.DETERMINISTIC, ht', hc', ht, hcm,
        Bind.bind, Except.bind, pure, Except.pure, String.append_assoc]
    exact ⟨by rw [herr, hc']; rfl, fun _ => herr⟩

/-- C1 witness: the amended statement at t = "binData" (not in the
compatible set) — hypotheses discharged concretely. -/
theorem C1_witness :
    ("binData" : String) ≠ "" ∧
    (((validateCSFLESchema (detSchema "binData") "root").isOk =
        deterministicSupportedTypes.contains "binData") ∧
      (deterministicSupportedTypes.contains "binData" = false →
        validateCSFLESchema (detSchema "binData") "root" =
          .error (.schemaError ("Invalid schema for '" ++ "root.f" ++ "': bsonType '" ++
            jsDisplay (.str "binData") ++
            "' is not supported with Deterministic algorithm. " ++
            "Supported types for deterministic encryption are: " ++
            String.intercalate ", " deterministicSupportedTypes)))) :=
  ⟨by decide, C1_amended_deterministic_types "binData" (by decide)⟩

/-- C6: resolving the same field path twice in sequence against the
same key-vault store returns the same key handle both times — if the
first call created a key tagged with that alternate name, the second
finds that record and returns its id unchanged. -/
theorem C6_getDEK_idempotent (s : VaultState) (path : String) :
    (getDEK (getDEK s path).1 path).2 = (getDEK s path).2 := by
  unfold getDEK
  cases hfind : findOneByAltName s.docs path with
  | some doc => simp [hfind]
  | none =>
      simp only [hfind, createDataKey]
      have happ : findOneByAltName
          (s.docs ++ [{ docId := s.nextKey, keyAltNames := [path] }]) path =
          some { docId := s.nextKey, keyAltNames := [path] } := by
        unfold findOneByAltName at hfind ⊢
        rw [List.find?_append, hfind]
        simp
      simp [happ]

/-- The collaborator behaviour of a `getDEK` run whose connection
attempt fails. -/
def c7BadConnect : DekCollab :=
  { connect := .error "connect ECONNREFUSED 127.0.0.1:27017",
    findOne := fun _ => .ok none,
    createDataKey := fun _ => .ok 0 }

/-- C7 counterexample: a connection failure is NOT wrapped —
`mongoClient.connect()` runs before the try/catch, so the raw
collaborator error escapes without the encryption taxonomy tag and
without the field path, refuting "no raw collaborator error escapes
un-annotated". -/
theorem C7_counterexample :
    getDEKFallible c7BadConnect "users.ssn" =
      .error (.raw "connect ECONNREFUSED 127.0.0.1:27017") := by
  rfl

/-- C7 (amended): failures of the key-vault lookup or of key creation —
everything inside the try block — ARE wrapped into a single
EncryptionError carrying the field path and the cause message; only a
failure of the initial `connect()` escapes raw. -/
theorem C7_amended_error_wrapping (c : DekCollab) (path e : String)
    (hconn : c.connect = .ok ()) :
    (c.findOne path = .error e →
      getDEKFallible c path =
        .error (.encryptionError
          ("Failed to create or retrieve DEK for " ++ path ++ ": " ++ e))) ∧
    (c.findOne path = .ok none → c.createDataKey path = .error e →
      getDEKFallible c path =
        .error (.encryptionError
          ("Failed to create or retrieve DEK for " ++ path ++ ": " ++ e))) := by
  constructor
  · intro hfind
    simp [getDEKFallible, hconn, hfind, Bind.bind, Except.bind]
  · intro hfind hcreate
    simp [getDEKFallible, hconn, hfind, hcreate, Bind.bind, Except.bind]

/-- C7 witness: the amended wrapping at a concrete failing lookup. -/
theorem C7_witness :
    (DekCollab.connect
      { connect := .ok (), findOne := fun _ => .error "network timeout",
        createDataKey := fun _ => .ok 3 } = .ok ()) ∧
    (getDEKFallible
      { connect := .ok (), findOne := fun _ => .error "network timeout",
        createDataKey := fun _ => .ok 3 } "users.ssn" =
      .error (.encryptionError
        ("Failed to create or retrieve DEK for " ++ "users.ssn" ++ ": " ++
          "network timeout"))) := by
  refine ⟨rfl, ?_⟩
  exact (C7_amended_error_wrapping _ "users.ssn" "network timeout" rfl).1 rfl

/-- A minimal valid schema for exercising `buildEncryptionConfig`. -/
def c10Schema : JValue :=
  .obj (.cons "db.users" (.obj
    (.cons "bsonType" (.str "object")
    (.cons "properties" (.obj (.cons "ssn" (.obj
      (.cons "encrypt" (.obj
        (.cons "bsonType" (.str "string")
        (.cons "algorithm" (.str EEncryptionAlgorithm.DETERMINISTIC)
        (.cons "keyId" (.arr .nil) .nil)))) .nil)) .nil))
    .nil))) .nil)

/-- C10: a kmip provider is accepted by the DekManager —
`getKmsProviderConfig` returns the kmip credential shape and
`getMasterKey` passes the configured master key through — while
`ServerEncryptionService.buildEncryptionConfig` always throws
`ConfigurationError("Unsupported KMS provider: kmip")` for the same
provider, so a kmip caller can generate schemas and keys but never
construct the encrypted client. -/
theorem C10_kmip_provider_split (endpoint : String) (mk : Option KmipMasterKey)
    (kv : IKeyVault) (s : JValue)
    (hdb : kv.database ≠ "") (hcoll : kv.collection ≠ "")
    (hs : (validateCSFLESchema s "root").isOk = true) :
    getKmsProviderConfig (.kmip endpoint mk) = .kmipConf endpoint ∧
    getMasterKey (.kmip endpoint mk) = mk.map MasterKeyConfig.kmipKey ∧
    buildEncryptionConfig kv (.kmip endpoint mk) (some s) =
      .error (.configurationError "Unsupported KMS provider: kmip") := by
  refine ⟨rfl, rfl, ?_⟩
  have hdb' : (kv.database == "") = false := by simpa using hdb
  have hcoll' : (kv.collection == "") = false := by simpa using hcoll
  unfold buildEncryptionConfig
  rw [hdb', hcoll']
  simp only [Bool.false_or, Bool.or_self, Bool.false_eq_true, if_false]
  cases hv : validateCSFLESchema s "root" with
  | ok b => rfl
  | error e => rw [hv] at hs; simp [Except.isOk, Except.toBool] at hs

/-- C10 witness: the split at a concrete kmip configuration. -/
theorem C10_witness :
    ((IKeyVault.mk "encryption" "__keyVault").database ≠ "" ∧
     (IKeyVault.mk "encryption" "__keyVault").collection ≠ "" ∧
     (validateCSFLESchema c10Schema "root").isOk = true) ∧
    (getKmsProviderConfig (.kmip "kmip.example.com:5696" none) =
        .kmipConf "kmip.example.com:5696" ∧
     getMasterKey (.kmip "kmip.example.com:5696" none) =
        (none : Option KmipMasterKey).map MasterKeyConfig.kmipKey ∧
     buildEncryptionConfig (IKeyVault.mk "encryption" "__keyVault")
        (.kmip "kmip.example.com:5696" none) (some c10Schema) =
      .error (.configurationError "Unsupported KMS provider: kmip")) := by
  refine ⟨⟨by decide, by decide, by decide⟩, ?_⟩
  exact C10_kmip_provider_split "kmip.example.com:5696" none
    (IKeyVault.mk "encryption" "__keyVault") c10Schema
    (by decide) (by decide) (by decide)


/-- C8: `validateCSFLESchema` accepts a schema exactly when it is
structurally good: every visited node must be a non-null object-typed
value whose keys are all on the allow-list (`goodNodeF`'s
`keysAllowed` conjunct); a node with a truthy `properties` must have
`bsonType === "object"` and a non-empty properties value
(`propsShapeOk` — so `properties: {}` is rejected, as is `properties`
with any other `bsonType`); `encrypt` and `patternProperties` blocks
must pass their own checks; and all such conditions must hold
recursively.  In particular any node with an empty properties mapping,
a properties mapping beside a non-"object" bsonType, or a key outside
the allow-list makes validation throw, and a tree with no violation
validates. -/
theorem C8_structural_validation (s : JValue) (cn : String) :
    (validateCSFLESchema s cn).isOk = goodSchema s :=
  validateCSFLESchema_isOk s cn

/-- A single-collection schema whose one field carries an `encrypt` key
with value `e`. -/
def c9Schema (e : JValue) : JValue :=
  .obj (.cons "test.coll" (.obj
    (.cons "bsonType" (.str "object")
    (.cons "properties" (.obj
      (.cons "f" (.obj (.cons "encrypt" e .nil)) .nil)) .nil)))
  .nil)

/-- C9 counterexample: a node whose `encrypt` key is `null` VALIDATES —
`if (obj.encrypt)` skips falsy values, so no missing-bsonType or
missing-algorithm error is raised — refuting "this holds for every
value the encrypt key is given, including null". -/
theorem C9_counterexample :
    validateCSFLESchema (c9Schema .null) "root" = .ok true := by
  decide

set_option maxHeartbeats 4000000 in
/-- C9 (amended): for every TRUTHY `encrypt` value the checks hold as
claimed — a non-object-typed value is rejected as an invalid encrypt
definition, and an object-typed value missing `bsonType` (falsy),
respectively carrying `bsonType` but missing `algorithm`, each draws
its distinct, specifically-worded error naming the field.  Falsy
`encrypt` values (null, false, 0, "") skip encrypt validation
entirely. -/
theorem C9_amended_encrypt_checks (e : JValue) (hte : truthy e = true) :
    (jsTypeof e ≠ "object" →
      validateCSFLESchema (c9Schema e) "root" =
        .error (.schemaError "Invalid encrypt definition for field 'root.f'.")) ∧
    (jsTypeof e = "object" → truthyOpt (jsGet e "bsonType") = false →
      validateCSFLESchema (c9Schema e) "root" =
        .error (.schemaError "Missing bsonType for encrypted field 'root.f'.")) ∧
    (jsTypeof e = "object" → truthyOpt (jsGet e "bsonType") = true →
      truthyOpt (jsGet e "algorithm") = false →
      validateCSFLESchema (c9Schema e) "root" =
        .error (.schemaError "Missing algorithm for encrypted field 'root.f'.")) := by
  have hrun : ∀ m : String, validateEncrypt "root.f" e = .error (.schemaError m) →
      validateCSFLESchema (c9Schema e) "root" = .error (.schemaError m) := by
    intro m hR
    cases e <;>
      simp_all [validateCSFLESchema, validateCollections, recursiveValidate,
        recursiveValidateF, c9Schema, checkNodeType, checkPropertiesShape,
        checkEncrypt, checkAllowedKeys, propsRecursion, patternRecursion,
        forEachEntry, jsGet, JFields.lookup, truthy, truthyOpt, jsTypeof, isNull,
        jsEntries, JFields.toList, jsKeys, JFields.keys, jsKeysLength,
        JFields.length, isStrEqOpt, jheight, jheightF, jheightVal, jheightVals,
        jheightElems, allowedKeys, Bind.bind, Except.bind,
        pure, Except.pure]
  have hnn : isNull e = false := by
    cases e <;> simp_all [truthy, isNull]
  refine ⟨?_, ?_, ?_⟩
  · intro h1
    refine hrun _ ?_
    have h1' : (jsTypeof e != "object") = true := by simpa using h1
    unfold validateEncrypt
    rw [if_pos h1']
    rfl
  · intro h1 h2
    refine hrun _ ?_
    have c1 : ¬((jsTypeof e != "object") = true) := by simp [h1]
    have c2 : ¬(isNull e = true) := by simp [hnn]
    have c3 : (!truthyOpt (jsGet e "bsonType")) = true := by simp [h2]
    unfold validateEncrypt
    rw [if_neg c1, if_neg c2, if_pos c3]
    rfl
  · intro h1 h2 h3
    refine hrun _ ?_
    have c1 : ¬((jsTypeof e != "object") = true) := by simp [h1]
    have c2 : ¬(isNull e = true) := by simp [hnn]
    have c3 : ¬((!truthyOpt (jsGet e "bsonType")) = true) := by simp [h2]
    have c4 : (!truthyOpt (jsGet e "algorithm")) = true := by simp [h3]
    unfold validateEncrypt
    rw [if_neg c1, if_neg c2, if_neg c3, if_pos c4]
    rfl

/-- C9 witness: the amended checks at `encrypt: "invalid"` (a truthy
non-object value). -/
theorem C9_witness :
    truthy (.str "invalid") = true ∧
    (jsTypeof (JValue.str "invalid") ≠ "object" ∧
      validateCSFLESchema (c9Schema (.str "invalid")) "root" =
        .error (.schemaError "Invalid encrypt definition for field 'root.f'.")) := by
  refine ⟨by decide, by decide, ?_⟩
  exact (C9_amended_encrypt_checks (.str "invalid") (by decide)).1 (by decide)

end Mirage
